import Mathlib

/-!
Shallow embedding of the staged-upload and processing pipeline of the
streamhaven backend: the in-memory run-state semaphore
(src/helper/stagingProcessState.helper.js), the Abyss quota check
(src/helper/abyss.helper.js), the staging ledger operations
(src/helper/stagingVideo.helper.js), the drain run of POST /api/staging/process
(src/routes/staging.route.js), and the two chunked-upload handlers
(parts-on-disk reassembly in src/routes/staging.route.js, append-stream in the
alternate staging route file).  Persisted state (MongoDB documents, GridFS
files, temp artifacts) is modelled as explicit functional state; each Express
handler or helper becomes a pure transition function from state to
state-plus-response.
-/

namespace StreamHaven

/-- Chunk payloads are byte lists (a byte is a Nat; only lengths and
concatenation order matter to the claims). -/
abbrev Bytes := List Nat

/-- StagingVideo.status enum from src/model/stagingVideo.model.js. -/
inductive Status where
  | writing
  | pending
  | uploading
  | storage_fail
  | daily_fail
  | max_upload_fail
  | uploaded_not_ready
  | ready
  | error
  deriving DecidableEq, Repr

/-- STATUS_ENUM from src/routes/staging.route.js line 20 (note: no writing). -/
def STATUS_ENUM : List Status :=
  [.pending, .uploading, .storage_fail, .daily_fail, .max_upload_fail,
   .uploaded_not_ready, .ready, .error]

/-- PROCESSABLE_STATUSES from src/routes/staging.route.js line 22. -/
def PROCESSABLE_STATUSES : List Status :=
  [.pending, .storage_fail, .daily_fail, .max_upload_fail, .error]

/-! ## Staging ledger data model

A StagingVideo document (src/model/stagingVideo.model.js).  `_id` and
`gridFsFileId` are ObjectId strings; `createdAt` is the timestamps field used
for sorting.  Fields not read by any modelled operation (imdbId, poster_path,
tmdbId are kept because the drain loop copies them into UploadedVideo). -/
structure StagingDoc where
  _id : String
  gridFsFileId : String
  filename : String
  size : Int
  contentType : String
  tmdbId : Option Int
  title : String
  poster_path : Option String
  status : Status
  errorMessage : Option String
  abyssSlug : Option String
  createdAt : Nat
  deriving DecidableEq, Repr

/-- A GridFS files-collection document for the stagingVideos bucket
(src/model/videoGridFs.model.js): id, optional metadata contentType and the
stored filename.  The bucket (file doc plus chunks) is the blob store; a
present FileDoc means the blob exists. -/
structure FileDoc where
  _id : String
  contentType : Option String
  filename : String
  deriving DecidableEq, Repr

/-- The persisted store the staging helpers act on: the StagingVideo
collection and the GridFS stagingVideos bucket. -/
structure Store where
  db : List StagingDoc
  files : List FileDoc
  deriving DecidableEq, Repr

/-- Well-formedness of an ObjectId input string: `new mongoose.Types.ObjectId(s)`
succeeds on a 24-character hex string or a 12-character byte string and throws
otherwise; the helpers wrap the conversion in try/catch. -/
def isWellFormedObjectId (s : String) : Bool :=
  (s.length == 24 && s.toList.all (fun c => c.isDigit || ('a' ≤ c && c ≤ 'f') || ('A' ≤ c && c ≤ 'F')))
    || s.length == 12

/-- getStagingById (src/helper/stagingVideo.helper.js lines 151-159): parse the
id (null on a malformed id), then findById.  Mongo `_id` values are unique, so
first-match lookup is the document lookup. -/
def getStagingById (stagingId : String) (db : List StagingDoc) : Option StagingDoc :=
  if isWellFormedObjectId stagingId then
    db.find? (fun d => d._id == stagingId)
  else
    none

/-- A partial update passed to updateStaging, as used by the staging route:
only status, errorMessage and abyssSlug are ever written there.  A `some`
field is set; `none` leaves the stored value. -/
structure StagingUpdate where
  status : Option Status
  errorMessage : Option String
  abyssSlug : Option String
  deriving DecidableEq, Repr

def applyStagingUpdate (u : StagingUpdate) (d : StagingDoc) : StagingDoc :=
  { d with
    status := u.status.getD d.status
    errorMessage := match u.errorMessage with
      | some m => some m
      | none => d.errorMessage
    abyssSlug := match u.abyssSlug with
      | some s => some s
      | none => d.abyssSlug }

/-- updateStaging (src/helper/stagingVideo.helper.js lines 216-224): malformed
id returns null and touches nothing; otherwise findByIdAndUpdate, returning the
updated document (or null when no document has this id).  `_id` is unique, so
updating every matching document equals updating the one match. -/
def updateStaging (stagingId : String) (u : StagingUpdate) (db : List StagingDoc) :
    List StagingDoc × Option StagingDoc :=
  if isWellFormedObjectId stagingId then
    let db' := db.map (fun d => if d._id == stagingId then applyStagingUpdate u d else d)
    (db', (db.find? (fun d => d._id == stagingId)).map (applyStagingUpdate u))
  else
    (db, none)

/-- deleteStaging (src/helper/stagingVideo.helper.js lines 229-242): look the
document up (false when absent or the id is malformed), delete its GridFS file
(the try/catch tolerates the blob already being gone, which the filter models),
then delete the row and return true. -/
def deleteStaging (stagingId : String) (s : Store) : Store × Bool :=
  match getStagingById stagingId s.db with
  | none => (s, false)
  | some staging =>
      ({ db := s.db.filter (fun d => !(d._id == staging._id)),
         files := s.files.filter (fun f => !(f._id == staging.gridFsFileId)) }, true)

/-- Insertion into a list sorted by descending key (used to model Mongo
sort on createdAt: -1). -/
def insertByKeyDesc (key : StagingDoc → Nat) (x : StagingDoc) :
    List StagingDoc → List StagingDoc
  | [] => [x]
  | y :: ys => if key y < key x then x :: y :: ys else y :: insertByKeyDesc key x ys

/-- Sort newest-first by createdAt. -/
def sortByCreatedDesc : List StagingDoc → List StagingDoc
  | [] => []
  | x :: xs => insertByKeyDesc (fun d => d.createdAt) x (sortByCreatedDesc xs)

/-- Insertion into a list sorted by ascending key. -/
def insertByKeyAsc (key : StagingDoc → Nat) (x : StagingDoc) :
    List StagingDoc → List StagingDoc
  | [] => [x]
  | y :: ys => if key x < key y then x :: y :: ys else y :: insertByKeyAsc key x ys

/-- Sort oldest-first by createdAt. -/
def sortByCreatedAsc : List StagingDoc → List StagingDoc
  | [] => []
  | x :: xs => insertByKeyAsc (fun d => d.createdAt) x (sortByCreatedAsc xs)

/-- listStaging (src/helper/stagingVideo.helper.js lines 197-211): build the
query from the statuses filter (preferred) or the single status filter, else
the empty query; find, sort createdAt descending, skip, limit; total counts
every matching document. -/
def listStaging (status : Option Status) (statuses : Option (List Status))
    (limit skip : Nat) (db : List StagingDoc) : List StagingDoc × Nat :=
  let query : StagingDoc → Bool :=
    match statuses with
    | some l => if l.isEmpty then fun _ => true else fun d => l.contains d.status
    | none =>
        match status with
        | some st => fun d => d.status == st
        | none => fun _ => true
  let matching := db.filter query
  (((sortByCreatedDesc matching).drop skip).take limit, matching.length)

/-- getStagingVideoStream (src/helper/stagingVideo.helper.js lines 166-187):
null when the staging doc is absent, when its gridFsFileId does not convert,
or when the files collection has no such file; otherwise the download stream
together with contentType and filename (with the JS || fallbacks on empty
strings).  The opened stream is represented by the file id. -/
def getStagingVideoStream (stagingId : String) (s : Store) :
    Option (String × String × String) :=
  match getStagingById stagingId s.db with
  | none => none
  | some staging =>
      if staging.gridFsFileId == "" then none
      else if isWellFormedObjectId staging.gridFsFileId then
        match s.files.find? (fun f => f._id == staging.gridFsFileId) with
        | none => none
        | some fileDoc =>
            let contentType :=
              match fileDoc.contentType with
              | some ct => if ct == "" then
                  (if staging.contentType == "" then "video/mp4" else staging.contentType)
                else ct
              | none => if staging.contentType == "" then "video/mp4" else staging.contentType
            let filename :=
              if staging.filename == "" then
                (if fileDoc.filename == "" then "video.mp4" else fileDoc.filename)
              else staging.filename
            some (staging.gridFsFileId, contentType, filename)
      else none

/-! ## Run controller state (src/helper/stagingProcessState.helper.js) -/

/-- A display snapshot entry of one run item (stagingId, title, filename). -/
structure RunItem where
  stagingId : String
  title : String
  filename : String
  deriving DecidableEq, Repr

/-- The process-wide RunState singleton (module-level `state`). -/
structure RunState where
  isProcessing : Bool
  startedAt : Option Nat
  total : Nat
  processed : Nat
  failed : Nat
  currentStagingId : Option String
  items : List RunItem
  deriving DecidableEq, Repr

/-- The snapshot entry built by tryStartRun for one pending doc:
d._id.toString(), d.title, d.filename (the ?? fallbacks never fire because the
schema defaults both fields to strings). -/
def toRunItem (d : StagingDoc) : RunItem :=
  { stagingId := d._id, title := d.title, filename := d.filename }

/-- tryStartRun (src/helper/stagingProcessState.helper.js lines 40-54): return
false untouched when already processing; otherwise take the lock, record
startedAt (`new Date()` passed in as now), set total, zero the counters, clear
currentStagingId, snapshot the pending docs, return true. -/
def tryStartRun (now : Nat) (pendingDocs : List StagingDoc) (s : RunState) :
    Bool × RunState :=
  if s.isProcessing then (false, s)
  else
    (true,
      { isProcessing := true
        startedAt := some now
        total := pendingDocs.length
        processed := 0
        failed := 0
        currentStagingId := none
        items := pendingDocs.map toRunItem })

/-- updateProgress (lines 62-66). -/
def updateProgress (processed failed : Nat) (currentStagingId : Option String)
    (s : RunState) : RunState :=
  { s with processed := processed, failed := failed, currentStagingId := currentStagingId }

/-- endRun (lines 71-75): release the lock and clear the current item, keeping
the counters and snapshot for display. -/
def endRun (s : RunState) : RunState :=
  { s with isProcessing := false, currentStagingId := none }

/-! ## Abyss quota check (src/helper/abyss.helper.js) -/

/-- The quota fields checkUploadQuota reads off the (normalized) Abyss account
info; the several fallback key lookups in the JS all land on these values,
missing keys defaulting to 0 (respectively null for maxUploads). -/
structure QuotaInfo where
  storageUsed : Int
  storageLimit : Int
  dailyUsed : Int
  dailyLimit : Int
  maxUploads : Option Int
  uploadsCount : Int
  deriving DecidableEq, Repr

/-- The result record of checkUploadQuota. -/
structure QuotaResult where
  canUpload : Bool
  failStatus : Option Status
  deriving DecidableEq, Repr

/-- checkUploadQuota (src/helper/abyss.helper.js lines 179-198): storage, then
daily, then max-uploads, each mapping to its own fail status. -/
def checkUploadQuota (d : QuotaInfo) (fileSizeBytes : Int) : QuotaResult :=
  if d.storageLimit > 0 && d.storageUsed + fileSizeBytes > d.storageLimit then
    { canUpload := false, failStatus := some .storage_fail }
  else if d.dailyLimit > 0 && d.dailyUsed ≥ d.dailyLimit then
    { canUpload := false, failStatus := some .daily_fail }
  else
    match d.maxUploads with
    | some m =>
        if d.uploadsCount ≥ m then
          { canUpload := false, failStatus := some .max_upload_fail }
        else { canUpload := true, failStatus := none }
    | none => { canUpload := true, failStatus := none }

/-! ## Drain run (POST /api/staging/process in src/routes/staging.route.js)

The per-item publish pipeline performs network and filesystem effects
(getAccountInfo, stream materialization, uploadVideoToAbyss, getSlugStatus);
these collaborators are abstracted as oracles in a DrainEnv, while the staging
rows, the GridFS files, the UploadedVideo rows and the abyss-upload temp
artifacts are explicit state. -/

/-- getSlugStatus (src/helper/abyss.helper.js lines 247-260) returns exactly
ready or uploaded_not_ready. -/
inductive SlugStatus where
  | ready
  | uploaded_not_ready
  deriving DecidableEq, Repr

def slugStatusToStatus : SlugStatus → Status
  | .ready => .ready
  | .uploaded_not_ready => .uploaded_not_ready

/-- An UploadedVideo row created on successful publish (route lines 399-407). -/
structure UploadedVideo where
  externalId : Option Int
  title : String
  poster_path : Option String
  abyssSlug : String
  slugStatus : SlugStatus
  filename : Option String
  size : Option Int
  deriving DecidableEq, Repr

/-- Oracles for the fallible collaborator calls of one drain run, keyed by the
staging id being processed (slugStatus by the returned slug).  `Except.error`
models the call throwing. -/
structure DrainEnv where
  account : String → Except String QuotaInfo
  materialize : String → Option String
  upload : String → Except String String
  slugStatus : String → Except String SlugStatus

/-- The abyss-upload temp artifact of one staging item (route line 378); the
Date.now() and extension suffixes are irrelevant to existence, so artifacts
are tagged by staging id. -/
def abyssTmpName (stagingId : String) : String :=
  "abyss-upload-" ++ stagingId

/-- All state a drain run touches besides the RunState singleton. -/
structure DrainSt where
  store : Store
  uploaded : List UploadedVideo
  tmpFiles : List String
  deriving DecidableEq, Repr

inductive ItemOutcome where
  | quotaStop
  | failed
  | ok
  deriving DecidableEq, Repr

/-- One iteration of the drain loop body (route lines 348-425): quota check
(quota failure updates the item status and breaks the run), set uploading and
open the staging stream (failure is an item error, run continues), materialize
to the temp file (a throw here happens before the unlink finally exists, so the
artifact stays), upload to Abyss inside try/finally-unlink, then slug status,
UploadedVideo creation, status mirror and staging deletion; any throw after the
quota check lands in the per-item catch which sets status error. -/
def processOne (env : DrainEnv) (st : DrainSt) (doc : StagingDoc) :
    DrainSt × ItemOutcome :=
  let stagingId := doc._id
  match env.account stagingId with
  | .error e =>
      let db' := (updateStaging stagingId ⟨some .error, some e, none⟩ st.store.db).1
      ({ st with store := { st.store with db := db' } }, .failed)
  | .ok accountInfo =>
      let quota := checkUploadQuota accountInfo doc.size
      if !quota.canUpload then
        let db' := (updateStaging stagingId ⟨quota.failStatus, none, none⟩ st.store.db).1
        ({ st with store := { st.store with db := db' } }, .quotaStop)
      else
        let db1 := (updateStaging stagingId ⟨some .uploading, none, none⟩ st.store.db).1
        let store1 : Store := { st.store with db := db1 }
        match getStagingVideoStream stagingId store1 with
        | none =>
            let db2 := (updateStaging stagingId
              ⟨some .error, some "Could not open staging stream", none⟩ db1).1
            ({ st with store := { store1 with db := db2 } }, .failed)
        | some _ =>
            let tmp := abyssTmpName stagingId
            let tmps1 := st.tmpFiles ++ [tmp]
            match env.materialize stagingId with
            | some errMsg =>
                let db2 := (updateStaging stagingId ⟨some .error, some errMsg, none⟩ db1).1
                ({ st with store := { store1 with db := db2 }, tmpFiles := tmps1 }, .failed)
            | none =>
                let tmps2 := tmps1.filter (fun t => !(t == tmp))
                match env.upload stagingId with
                | .error errMsg =>
                    let db2 := (updateStaging stagingId ⟨some .error, some errMsg, none⟩ db1).1
                    ({ st with store := { store1 with db := db2 }, tmpFiles := tmps2 }, .failed)
                | .ok slug =>
                    match env.slugStatus slug with
                    | .error errMsg =>
                        let db2 := (updateStaging stagingId
                          ⟨some .error, some errMsg, none⟩ db1).1
                        ({ st with store := { store1 with db := db2 }, tmpFiles := tmps2 },
                          .failed)
                    | .ok slugSt =>
                        let rec0 : UploadedVideo :=
                          { externalId := doc.tmdbId
                            title := doc.title
                            poster_path := doc.poster_path
                            abyssSlug := slug
                            slugStatus := slugSt
                            filename := some doc.filename
                            size := some doc.size }
                        let db2 := (updateStaging stagingId
                          ⟨some (slugStatusToStatus slugSt), none, some slug⟩ db1).1
                        let (store', _) := deleteStaging stagingId { db := db2, files := store1.files }
                        ({ store := store'
                           uploaded := st.uploaded ++ [rec0]
                           tmpFiles := tmps2 }, .ok)

/-- The summary the drain run reports back: processed/failed counts and
whether it stopped early on quota. -/
structure RunSummary where
  processed : Nat
  failed : Nat
  quotaStopped : Bool
  deriving DecidableEq, Repr

/-- The drain for-loop (route lines 348-425): on quota stop break immediately,
on item failure increment failed and continue, on success increment processed
and continue. -/
def processLoop (env : DrainEnv) :
    List StagingDoc → DrainSt → Nat → Nat → DrainSt × RunSummary
  | [], st, processed, failed => (st, ⟨processed, failed, false⟩)
  | doc :: rest, st, processed, failed =>
      match processOne env st doc with
      | (st', .quotaStop) => (st', ⟨processed, failed, true⟩)
      | (st', .failed) => processLoop env rest st' processed (failed + 1)
      | (st', .ok) => processLoop env rest st' (processed + 1) failed

/-- The candidate query of the drain endpoint (route lines 324-327): statuses
in PROCESSABLE_STATUSES, createdAt ascending, capped at 100. -/
def processablePending (db : List StagingDoc) : List StagingDoc :=
  (sortByCreatedAsc (db.filter (fun d => PROCESSABLE_STATUSES.contains d.status))).take 100

inductive ProcessResponse where
  | conflict (snapshot : RunState)
  | finished (processed failed : Nat) (quotaStopped : Bool) (total : Nat)
  deriving DecidableEq, Repr

/-- POST /api/staging/process (route lines 318-442): load the processable
pending snapshot, take the run lock via tryStartRun (409 conflict with the
current state when it fails), run the drain loop, and release the lock with
endRun in the finally; the RunState counters end at the summary counts (the
last updateProgress) and endRun clears isProcessing and currentStagingId. -/
def processEndpoint (env : DrainEnv) (now : Nat) (rs : RunState) (st : DrainSt) :
    ProcessResponse × RunState × DrainSt :=
  let pending := processablePending st.store.db
  let (ok, rs1) := tryStartRun now pending rs
  if ok then
    let (st', sum) := processLoop env pending st 0 0
    let rsFinal := endRun (updateProgress sum.processed sum.failed none rs1)
    (.finished sum.processed sum.failed sum.quotaStopped pending.length, rsFinal, st')
  else
    (.conflict rs1, rs1, st)

/-! ## Chunked upload handlers

Two POST /api/staging/upload-chunk implementations exist in the repository:
the parts-on-disk reassembly handler (src/routes/staging.route.js lines
173-310) and the append-stream handler of the alternate staging route file
(one write stream per uploadId, chunks appended as they arrive).  Both are
modelled per upload id: the handlers key all their session state by the
(sanitized) uploadId and never touch other ids' state, so one session is
modelled and requests carry chunkIndex, totalChunks and the chunk bytes. -/

/-- One upload-chunk request for a fixed uploadId.  The route validation
requires 1 ≤ totalChunks and 0 ≤ chunkIndex < totalChunks (chunkIndex ≥ 0 by
Nat) and a present file buffer (always present here). -/
structure ChunkReq where
  chunkIndex : Nat
  totalChunks : Nat
  buffer : Bytes
  deriving DecidableEq, Repr

/-- Responses of the upload-chunk handlers.  chunkOk echoes success with the
request's chunkIndex and totalChunks; assembled is the 201 NDJSON done path and
carries the artifact handed to createStagingVideoWithProgress together with the
totalSize it is given; notAllChunks is the 400 not-all-chunks-found error of
the disk handler, carrying debug.filesInDir (the chunk indexes present in the
chunk dir) and debug.metaTotalChunks; badRequest is a plain 400. -/
inductive ChunkResp where
  | badRequest (msg : String)
  | chunkOk (chunkIndex totalChunks : Nat)
  | notAllChunks (filesInDir : List Nat) (metaTotalChunks : Option Nat)
  | assembled (artifact : Bytes) (totalSize : Nat)
  deriving DecidableEq, Repr

/-- meta.json of a chunk dir (disk handler); only totalChunks is read back by
checkAllPresent and the debug payload (filename/mimetype/tmdb metadata are
forwarded to the create call unchanged and play no role in the claims). -/
structure DiskMeta where
  totalChunks : Nat
  deriving DecidableEq, Repr

/-- A chunk dir on disk: the numbered chunk files (name, bytes) and the
optional meta.json.  File names in one directory are unique. -/
structure DiskDir where
  files : List (Nat × Bytes)
  meta : Option DiskMeta
  deriving DecidableEq, Repr

/-- fs.promises.writeFile of a numbered chunk file: overwrite when the name
exists, otherwise the directory gains the file. -/
def writeFileAt (files : List (Nat × Bytes)) (i : Nat) (b : Bytes) :
    List (Nat × Bytes) :=
  if (files.find? (fun e => e.1 == i)).isSome then
    files.map (fun e => if e.1 == i then (i, b) else e)
  else
    files ++ [(i, b)]

/-- fs.promises.access on a numbered chunk file / reading its bytes. -/
def lookupFile (files : List (Nat × Bytes)) (i : Nat) : Option Bytes :=
  (files.find? (fun e => e.1 == i)).map (fun e => e.2)

/-- checkAllPresent (route lines 213-224): readable meta.json and every chunk
file 0..meta.totalChunks-1 present; returns the parsed meta on success. -/
def checkAllPresent (d : DiskDir) : Option DiskMeta :=
  match d.meta with
  | none => none
  | some m =>
      if (List.range m.totalChunks).all (fun i => (lookupFile d.files i).isSome) then
        some m
      else none

/-- The parts-on-disk upload-chunk handler (src/routes/staging.route.js lines
173-310) as a transition on the session's chunk dir (none = dir absent).
Validation first; then mkdir+writeFile of the chunk, meta.json written on
chunk 0; if all chunks are present, take the reassembling lock, concatenate
the chunk files in index order 0..totalChunks-1 (the loop bound is the
request's totalChunks), hand the artifact with its summed size to the staging
create operation and clean the dir up; otherwise a declared last chunk polls
(no other request runs during the poll in this sequential model) and then
reports the not-all-chunks error with the dir listing and meta total, and any
other chunk is acknowledged. -/
def diskStep (req : ChunkReq) (s : Option DiskDir) : Option DiskDir × ChunkResp :=
  if !(1 ≤ req.totalChunks && req.chunkIndex < req.totalChunks) then
    (s, .badRequest "uploadId, chunkIndex (0-based), and totalChunks required")
  else
    let d0 := s.getD { files := [], meta := none }
    let d1 : DiskDir := { d0 with files := writeFileAt d0.files req.chunkIndex req.buffer }
    let d2 : DiskDir :=
      if req.chunkIndex == 0 then { d1 with meta := some { totalChunks := req.totalChunks } }
      else d1
    match checkAllPresent d2 with
    | some _ =>
        let artifact := ((List.range req.totalChunks).map
          (fun i => (lookupFile d2.files i).getD [])).flatten
        (none, .assembled artifact artifact.length)
    | none =>
        if req.chunkIndex == req.totalChunks - 1 then
          (some d2, .notAllChunks (d2.files.map (fun e => e.1)) (d2.meta.map (fun m => m.totalChunks)))
        else
          (some d2, .chunkOk req.chunkIndex req.totalChunks)

/-- One uploadStreams entry of the append-stream handler: the append-only temp
file contents written so far, the set of received chunk indexes and the
totalChunks recorded at creation. -/
structure AppendEntry where
  file : Bytes
  received : List Nat
  totalChunks : Nat
  deriving DecidableEq, Repr

/-- The append-stream upload-chunk handler (alternate staging route file,
POST /upload-chunk) as a transition on the session's uploadStreams entry
(none = no entry).  Chunk 0 with an entry that already received 0 is an
idempotent no-op success, otherwise chunk 0 (re)creates the entry with the
buffer as initial contents; a chunk > 0 without an entry is rejected with
Send chunk 0 first; an already-received index is an idempotent no-op success;
otherwise the bytes are appended and the index marked received, and when the
request's chunkIndex equals totalChunks - 1 the stream is closed, the file
(stat.size = its length) is handed to the staging create operation, the entry
is removed and the temp file deleted - without checking that every other
index was received. -/
def appendStep (req : ChunkReq) (s : Option AppendEntry) :
    Option AppendEntry × ChunkResp :=
  if !(1 ≤ req.totalChunks && req.chunkIndex < req.totalChunks) then
    (s, .badRequest "uploadId, chunkIndex (0-based), and totalChunks required")
  else if req.chunkIndex == 0 then
    match s with
    | some e =>
        if e.received.contains 0 then (some e, .chunkOk 0 req.totalChunks)
        else
          (some { file := req.buffer, received := [0], totalChunks := req.totalChunks },
            .chunkOk 0 req.totalChunks)
    | none =>
        (some { file := req.buffer, received := [0], totalChunks := req.totalChunks },
          .chunkOk 0 req.totalChunks)
  else
    match s with
    | none => (none, .badRequest "Send chunk 0 first.")
    | some e =>
        if e.received.contains req.chunkIndex then
          (some e, .chunkOk req.chunkIndex req.totalChunks)
        else
          let e' : AppendEntry :=
            { e with file := e.file ++ req.buffer, received := req.chunkIndex :: e.received }
          if req.chunkIndex == req.totalChunks - 1 then
            (none, .assembled e'.file e'.file.length)
          else
            (some e', .chunkOk req.chunkIndex req.totalChunks)

/-- Run a sequence of requests through a handler, collecting the responses. -/
def runChunks (step : ChunkReq → σ → σ × ChunkResp) : List ChunkReq → σ → σ × List ChunkResp
  | [], s => (s, [])
  | r :: rs, s =>
      let (s1, resp) := step r s
      let (s2, resps) := runChunks step rs s1
      (s2, resp :: resps)

/-! ## Sample values used by witnesses -/

/-- A RunState with the lock held, otherwise idle. -/
def busyRun : RunState :=
  { isProcessing := true, startedAt := none, total := 0, processed := 0,
    failed := 0, currentStagingId := none, items := [] }

/-- A DrainEnv whose collaborators are all unavailable. -/
def downEnv : DrainEnv :=
  { account := fun _ => .error "network down"
    materialize := fun _ => some "network down"
    upload := fun _ => .error "network down"
    slugStatus := fun _ => .error "network down" }

/-- The empty drain state. -/
def emptyDrainSt : DrainSt :=
  { store := { db := [], files := [] }, uploaded := [], tmpFiles := [] }

/-- A staging document with a well-formed id whose blob exists in demoStore. -/
def demoDoc : StagingDoc :=
  { _id := "0123456789abcdef01234567"
    gridFsFileId := "fedcba9876543210fedcba98"
    filename := "movie.mp4"
    size := 42
    contentType := "video/mp4"
    tmdbId := some 7
    title := "Movie"
    poster_path := none
    status := .pending
    errorMessage := none
    abyssSlug := none
    createdAt := 3 }

/-- A store holding demoDoc and its GridFS file. -/
def demoStore : Store :=
  { db := [demoDoc]
    files := [{ _id := "fedcba9876543210fedcba98", contentType := some "video/mp4",
                filename := "movie.mp4" }] }

/-! ## Claim theorems -/

/-- Claim C3: checkUploadQuota returns canUpload = false with storage_fail
exactly when a positive storage limit would be exceeded by adding the file
size; daily_fail exactly when storage allows but a positive daily limit is
already reached; max_upload_fail exactly when the previous two allow but a
non-null maxUploads is reached by the uploads count; and canUpload = true with
failStatus = null otherwise. -/
theorem checkUploadQuota_three_kinds (d : QuotaInfo) (n : Int) :
    (((checkUploadQuota d n).canUpload = false ∧
        (checkUploadQuota d n).failStatus = some .storage_fail) ↔
      (0 < d.storageLimit ∧ d.storageLimit < d.storageUsed + n))
    ∧ (((checkUploadQuota d n).canUpload = false ∧
        (checkUploadQuota d n).failStatus = some .daily_fail) ↔
      (¬(0 < d.storageLimit ∧ d.storageLimit < d.storageUsed + n) ∧
        0 < d.dailyLimit ∧ d.dailyLimit ≤ d.dailyUsed))
    ∧ (((checkUploadQuota d n).canUpload = false ∧
        (checkUploadQuota d n).failStatus = some .max_upload_fail) ↔
      (¬(0 < d.storageLimit ∧ d.storageLimit < d.storageUsed + n) ∧
        ¬(0 < d.dailyLimit ∧ d.dailyLimit ≤ d.dailyUsed) ∧
        ∃ m, d.maxUploads = some m ∧ m ≤ d.uploadsCount))
    ∧ (((checkUploadQuota d n).canUpload = true ∧
        (checkUploadQuota d n).failStatus = none) ↔
      (¬(0 < d.storageLimit ∧ d.storageLimit < d.storageUsed + n) ∧
        ¬(0 < d.dailyLimit ∧ d.dailyLimit ≤ d.dailyUsed) ∧
        ¬∃ m, d.maxUploads = some m ∧ m ≤ d.uploadsCount)) := by
  obtain ⟨su, sl, du, dl, mu, uc⟩ := d
  by_cases h1 : 0 < sl ∧ sl < su + n
  · have hb1 : (decide (sl > 0) && decide (su + n > sl)) = true := by
      simp only [Bool.and_eq_true, decide_eq_true_eq]
      exact ⟨h1.1, h1.2⟩
    simp only [checkUploadQuota, hb1, if_true]
    refine ⟨?_, ?_, ?_, ?_⟩ <;> simp [h1]
  · have hb1 : (decide (sl > 0) && decide (su + n > sl)) = false := by
      simp only [Bool.and_eq_false_iff, decide_eq_false_iff_not]
      by_cases hs : 0 < sl
      · exact Or.inr (fun hc => h1 ⟨hs, hc⟩)
      · exact Or.inl hs
    by_cases h2 : 0 < dl ∧ dl ≤ du
    · have hb2 : (decide (dl > 0) && decide (du ≥ dl)) = true := by
        simp only [Bool.and_eq_true, decide_eq_true_eq]
        exact ⟨h2.1, h2.2⟩
      simp only [checkUploadQuota, hb1, Bool.false_eq_true, if_false, hb2, if_true]
      refine ⟨?_, ?_, ?_, ?_⟩ <;> simp [h1, h2]
    · have hb2 : (decide (dl > 0) && decide (du ≥ dl)) = false := by
        simp only [Bool.and_eq_false_iff, decide_eq_false_iff_not]
        by_cases hd : 0 < dl
        · exact Or.inr (fun hc => h2 ⟨hd, hc⟩)
        · exact Or.inl hd
      cases mu with
      | none =>
          simp only [checkUploadQuota, hb1, Bool.false_eq_true, if_false, hb2]
          refine ⟨?_, ?_, ?_, ?_⟩ <;> simp [h1, h2]
      | some m =>
          by_cases h3 : m ≤ uc
          · have hb3 : decide (uc ≥ m) = true := decide_eq_true h3
            simp only [checkUploadQuota, hb1, Bool.false_eq_true, if_false, hb2, hb3, if_true]
            refine ⟨?_, ?_, ?_, ?_⟩ <;> simp [h1, h2, h3]
          · have hb3 : decide (uc ≥ m) = false := by
              simp only [decide_eq_false_iff_not]
              exact fun hc => h3 hc
            simp only [checkUploadQuota, hb1, Bool.false_eq_true, if_false, hb2, hb3]
            refine ⟨?_, ?_, ?_, ?_⟩ <;> simp [h1, h2, h3]

/-- Claim C1: tryStartRun returns false and leaves every field of the RunState
unchanged when isProcessing is already true; otherwise it takes the lock,
records startedAt, sets total to the candidate count, zeroes processed and
failed, stores the snapshot items and returns true; and the process-trigger
endpoint responds with a conflict carrying the current state exactly when
tryStartRun returns false. -/
theorem tryStartRun_conflict_contract (now : Nat) (env : DrainEnv) (rs : RunState)
    (st : DrainSt) (docs : List StagingDoc) :
    (rs.isProcessing = true → tryStartRun now docs rs = (false, rs))
    ∧ (rs.isProcessing = false →
        tryStartRun now docs rs =
          (true,
            { isProcessing := true
              startedAt := some now
              total := docs.length
              processed := 0
              failed := 0
              currentStagingId := none
              items := docs.map toRunItem }))
    ∧ ((processEndpoint env now rs st).1 = .conflict rs ↔
        (tryStartRun now (processablePending st.store.db) rs).1 = false) := by
  refine ⟨?_, ?_, ?_⟩
  · intro h
    simp [tryStartRun, h]
  · intro h
    simp [tryStartRun, h]
  · cases h : rs.isProcessing with
    | true => simp [processEndpoint, tryStartRun, h]
    | false => simp [processEndpoint, tryStartRun, h]

/-- Witness for C1: with the lock held, tryStartRun refuses and the endpoint
answers with the conflict snapshot; with the lock free it starts the run with
the contract's fields. -/
theorem tryStartRun_conflict_contract_witness :
    busyRun.isProcessing = true
    ∧ tryStartRun 5 [demoDoc] busyRun = (false, busyRun)
    ∧ (processEndpoint downEnv 5 busyRun emptyDrainSt).1 = .conflict busyRun
    ∧ tryStartRun 5 [demoDoc] { busyRun with isProcessing := false } =
        (true,
          { isProcessing := true
            startedAt := some 5
            total := 1
            processed := 0
            failed := 0
            currentStagingId := none
            items := [toRunItem demoDoc] }) :=
  ⟨rfl,
    (tryStartRun_conflict_contract 5 downEnv busyRun emptyDrainSt [demoDoc]).1 rfl,
    ((tryStartRun_conflict_contract 5 downEnv busyRun emptyDrainSt [demoDoc]).2.2).mpr
      (by decide),
    by
      have h := (tryStartRun_conflict_contract 5 downEnv
        { busyRun with isProcessing := false } emptyDrainSt [demoDoc]).2.1 rfl
      simpa using h⟩

/-- Claim C10: with an input string that is not a well-formed object id, the
staging ledger operations are total and side-effect free: getStagingById and
updateStaging return null, getStagingVideoStream returns null, deleteStaging
returns false, and no stored record or blob changes. -/
theorem invalid_id_operations_safe (s : String) (st : Store) (u : StagingUpdate)
    (h : isWellFormedObjectId s = false) :
    getStagingById s st.db = none
    ∧ updateStaging s u st.db = (st.db, none)
    ∧ getStagingVideoStream s st = none
    ∧ deleteStaging s st = (st, false) := by
  have h1 : getStagingById s st.db = none := by
    simp [getStagingById, h]
  refine ⟨h1, ?_, ?_, ?_⟩
  · simp [updateStaging, h]
  · simp [getStagingVideoStream, h1]
  · simp [deleteStaging, h1]

/-- Witness for C10 at the malformed id string. -/
theorem invalid_id_operations_safe_witness :
    isWellFormedObjectId "not-an-objectid!!" = false
    ∧ getStagingById "not-an-objectid!!" demoStore.db = none
    ∧ updateStaging "not-an-objectid!!" ⟨some .error, none, none⟩ demoStore.db =
        (demoStore.db, none)
    ∧ getStagingVideoStream "not-an-objectid!!" demoStore = none
    ∧ deleteStaging "not-an-objectid!!" demoStore = (demoStore, false) :=
  have h := invalid_id_operations_safe "not-an-objectid!!" demoStore
    ⟨some .error, none, none⟩ (by decide)
  ⟨by decide, h.1, h.2.1, h.2.2.1, h.2.2.2⟩

/-- After filtering out every document with the given id, a lookup for that id
finds nothing. -/
theorem find?_filter_ne_id (x : String) (l : List StagingDoc) :
    (l.filter (fun d => !(d._id == x))).find? (fun d => d._id == x) = none := by
  induction l with
  | nil => rfl
  | cons a l ih =>
      by_cases ha : a._id = x
      · simp [List.filter_cons, ha, ih]
      · simp [List.filter_cons, List.find?_cons, ha, ih]

/-- A delete whose lookup finds nothing no-ops and returns false. -/
theorem deleteStaging_not_found (t : Store) (id : String)
    (h : getStagingById id t.db = none) : deleteStaging id t = (t, false) := by
  simp [deleteStaging, h]

/-- Claim C9: deleting a StagingItem twice in a row succeeds (or no-ops) both
times without throwing - the second call observes the row gone and returns
false leaving the store untouched - and when the item existed, no blob with
its gridFsFileId remains; a blob already missing at delete time is tolerated
(the conclusion needs no assumption about the files collection). -/
theorem deleteStaging_idempotent (s : Store) (id : String) :
    deleteStaging id (deleteStaging id s).1 = ((deleteStaging id s).1, false)
    ∧ (∀ doc, getStagingById id s.db = some doc →
        (deleteStaging id s).2 = true
        ∧ (∀ f ∈ (deleteStaging id s).1.files, f._id ≠ doc.gridFsFileId)
        ∧ getStagingById id (deleteStaging id s).1.db = none)
    ∧ (getStagingById id s.db = none → deleteStaging id s = (s, false)) := by
  cases hfind : getStagingById id s.db with
  | none =>
      have hdel : deleteStaging id s = (s, false) := by
        simp [deleteStaging, hfind]
      refine ⟨?_, ?_, fun _ => hdel⟩
      · rw [hdel]
        exact hdel
      · intro doc hdoc
        exact Option.noConfusion hdoc
  | some doc0 =>
      have hwf : isWellFormedObjectId id = true := by
        by_contra hwf
        have : getStagingById id s.db = none := by
          simp only [getStagingById, if_neg hwf]
        rw [this] at hfind
        cases hfind
      have hfind' : s.db.find? (fun d => d._id == id) = some doc0 := by
        rw [getStagingById, if_pos hwf] at hfind
        exact hfind
      have hid : doc0._id = id := by
        have := List.find?_some hfind'
        simpa using this
      have hdel : deleteStaging id s =
          ({ db := s.db.filter (fun d => !(d._id == doc0._id)),
             files := s.files.filter (fun f => !(f._id == doc0.gridFsFileId)) }, true) := by
        simp [deleteStaging, hfind]
      have hgone : getStagingById id (deleteStaging id s).1.db = none := by
        rw [hdel]
        simp only [getStagingById, if_pos hwf]
        rw [hid]
        exact find?_filter_ne_id id s.db
      refine ⟨deleteStaging_not_found _ _ hgone, ?_, ?_⟩
      · intro doc hdoc
        injection hdoc with heq
        subst heq
        refine ⟨by rw [hdel], ?_, hgone⟩
        intro f hf
        rw [hdel] at hf
        have := List.mem_filter.mp hf
        simpa using this.2
      · intro hnone
        exact Option.noConfusion hnone

/-- Witness for C9: double delete of the demo document. -/
theorem deleteStaging_idempotent_witness :
    deleteStaging "0123456789abcdef01234567" demoStore = ({ db := [], files := [] }, true)
    ∧ deleteStaging "0123456789abcdef01234567"
        (deleteStaging "0123456789abcdef01234567" demoStore).1 =
        ((deleteStaging "0123456789abcdef01234567" demoStore).1, false)
    ∧ (∀ f ∈ (deleteStaging "0123456789abcdef01234567" demoStore).1.files,
        f._id ≠ demoDoc.gridFsFileId) :=
  have h := deleteStaging_idempotent demoStore "0123456789abcdef01234567"
  ⟨by decide, h.1, (h.2.1 demoDoc (by decide)).2.1⟩

/-- A staging document still being written (status writing). -/
def writingDoc : StagingDoc :=
  { demoDoc with
    _id := "00000000000000000000000a"
    gridFsFileId := "00000000000000000000000b"
    status := .writing }

/-- Claim C7 (failing input): the spec and the code's own comments
(stagingVideo.model.js status enum: writing means do not show in staging list;
stagingVideo.helper.js createStagingVideoFromStream: status writing so it does
not appear in the staging list) say writing items are excluded from every
list/queue query, but listStaging builds an empty query when no status filter
is given - exactly what GET /api/staging does without query parameters - and
returns the writing item.  The drain query does exclude it. -/
theorem listStaging_returns_writing_item :
    writingDoc.status = .writing
    ∧ (listStaging none none 20 0 [writingDoc]).1 = [writingDoc]
    ∧ (listStaging none none 20 0 [writingDoc]).2 = 1
    ∧ processablePending [writingDoc] = [] :=
  ⟨rfl, rfl, rfl, rfl⟩

/-- A drain environment where quota passes, the staging stream opens, but
materializing the blob to the temp file fails mid-pipe. -/
def leakEnv : DrainEnv :=
  { account := fun _ => .ok
      { storageUsed := 0, storageLimit := 0, dailyUsed := 0, dailyLimit := 0,
        maxUploads := none, uploadsCount := 0 }
    materialize := fun _ => some "premature close while piping to temp file"
    upload := fun _ => .error "unreachable"
    slugStatus := fun _ => .error "unreachable" }

/-- Claim C8 (counterexample): when writing the staging stream to the private
temp file fails, the per-item catch records the error, but the file created by
fs.createWriteStream(tmpPath) stays on disk: the unlink finally (route lines
392-394) only wraps the Abyss upload, not the materialization at line 380.  So
after this pipeline invocation (a failure) the private temp artifact still
exists, refuting the claim as stated. -/
theorem materialize_failure_leaves_tmp :
    (processOne leakEnv { store := demoStore, uploaded := [], tmpFiles := [] } demoDoc).1.tmpFiles
      = [abyssTmpName "0123456789abcdef01234567"]
    ∧ (processOne leakEnv { store := demoStore, uploaded := [], tmpFiles := [] } demoDoc).2
      = .failed :=
  ⟨rfl, rfl⟩

/-- Claim C8 (amended): after any Publish Pipeline invocation in which
materializing the blob to the private temp artifact did not itself fail, the
artifact no longer exists on disk (success or failure of every later step);
only a materialization failure leaves the partial artifact behind. -/
theorem tmp_cleanup_amended (env : DrainEnv) (st : DrainSt) (doc : StagingDoc)
    (h : env.materialize doc._id = none)
    (h2 : abyssTmpName doc._id ∉ st.tmpFiles) :
    (processOne env st doc).1.tmpFiles = st.tmpFiles := by
  have hfilter : (st.tmpFiles ++ [abyssTmpName doc._id]).filter
      (fun t => !(t == abyssTmpName doc._id)) = st.tmpFiles := by
    rw [List.filter_append]
    have ha : List.filter (fun t => !(t == abyssTmpName doc._id)) [abyssTmpName doc._id]
        = [] := by simp
    have hb : st.tmpFiles.filter (fun t => !(t == abyssTmpName doc._id)) = st.tmpFiles := by
      apply List.filter_eq_self.mpr
      intro a hmem
      have hne : a ≠ abyssTmpName doc._id := fun hEq => h2 (hEq ▸ hmem)
      simp [hne]
    rw [ha, hb, List.append_nil]
  cases hacc : env.account doc._id with
  | error e => simp [processOne, hacc]
  | ok ai =>
      cases hq : (checkUploadQuota ai doc.size).canUpload with
      | false => simp [processOne, hacc, hq]
      | true =>
          cases hstream : getStagingVideoStream doc._id
              { db := (updateStaging doc._id ⟨some .uploading, none, none⟩ st.store.db).1,
                files := st.store.files } with
          | none => simp [processOne, hacc, hq, hstream]
          | some sr =>
              cases hup : env.upload doc._id with
              | error msg => simp [processOne, hacc, hq, hstream, h, hup, hfilter]
              | ok slug =>
                  cases hss : env.slugStatus slug with
                  | error m => simp [processOne, hacc, hq, hstream, h, hup, hss, hfilter]
                  | ok sst => simp [processOne, hacc, hq, hstream, h, hup, hss, hfilter]

/-- An environment in which the whole publish pipeline succeeds. -/
def okEnv : DrainEnv :=
  { account := fun _ => .ok
      { storageUsed := 0, storageLimit := 0, dailyUsed := 0, dailyLimit := 0,
        maxUploads := none, uploadsCount := 0 }
    materialize := fun _ => none
    upload := fun _ => .ok "slug1"
    slugStatus := fun _ => .ok .ready }

/-- Witness for the amended C8: a fully successful publish leaves no temp
artifact. -/
theorem tmp_cleanup_amended_witness :
    okEnv.materialize demoDoc._id = none
    ∧ abyssTmpName demoDoc._id ∉ ([] : List String)
    ∧ (processOne okEnv { store := demoStore, uploaded := [], tmpFiles := [] } demoDoc).1.tmpFiles
        = [] :=
  ⟨rfl, by decide,
    tmp_cleanup_amended okEnv { store := demoStore, uploaded := [], tmpFiles := [] }
      demoDoc rfl (by decide)⟩

/-- Claim C2: when the quota check fails on the first candidate of a drain
run, the run ends immediately with processed = 0, failed = 0 and
quotaStopped = true; that first item's status becomes the returned fail status
(with a well-formed id, the updated document is stored with status equal to
the fail status); every document with a different id is still stored
unchanged (so none transitions to uploading), and the files, temp artifacts
and UploadedVideo rows are untouched. -/
theorem quota_fail_first_item_stops_run (env : DrainEnv) (st : DrainSt)
    (d : StagingDoc) (rest : List StagingDoc) (ai : QuotaInfo) (fs : Status)
    (hacc : env.account d._id = .ok ai)
    (hq : checkUploadQuota ai d.size = { canUpload := false, failStatus := some fs }) :
    processLoop env (d :: rest) st 0 0 =
      ({ st with store := { st.store with
            db := (updateStaging d._id ⟨some fs, none, none⟩ st.store.db).1 } },
        { processed := 0, failed := 0, quotaStopped := true })
    ∧ (∀ doc ∈ st.store.db, doc._id ≠ d._id →
        doc ∈ (processLoop env (d :: rest) st 0 0).1.store.db)
    ∧ (isWellFormedObjectId d._id = true →
        ∀ doc ∈ st.store.db, doc._id = d._id →
          applyStagingUpdate ⟨some fs, none, none⟩ doc
              ∈ (processLoop env (d :: rest) st 0 0).1.store.db
          ∧ (applyStagingUpdate ⟨some fs, none, none⟩ doc).status = fs)
    ∧ (processLoop env (d :: rest) st 0 0).1.store.files = st.store.files
    ∧ (processLoop env (d :: rest) st 0 0).1.tmpFiles = st.tmpFiles
    ∧ (processLoop env (d :: rest) st 0 0).1.uploaded = st.uploaded := by
  have hone : processOne env st d =
      ({ st with store := { st.store with
            db := (updateStaging d._id ⟨some fs, none, none⟩ st.store.db).1 } },
        .quotaStop) := by
    simp [processOne, hacc, hq]
  have hloop : processLoop env (d :: rest) st 0 0 =
      ({ st with store := { st.store with
            db := (updateStaging d._id ⟨some fs, none, none⟩ st.store.db).1 } },
        { processed := 0, failed := 0, quotaStopped := true }) := by
    simp [processLoop, hone]
  refine ⟨hloop, ?_, ?_, ?_, ?_, ?_⟩
  · intro doc hmem hne
    rw [hloop]
    simp only [updateStaging]
    by_cases hwf : isWellFormedObjectId d._id = true
    · simp only [if_pos hwf]
      have hf : (fun d0 => if (d0._id == d._id) then
            applyStagingUpdate ⟨some fs, none, none⟩ d0 else d0) doc = doc := by
        simp [hne]
      exact hf ▸ List.mem_map_of_mem _ hmem
    · simp only [if_neg hwf]
      exact hmem
  · intro hwf doc hmem heq
    constructor
    · rw [hloop]
      simp only [updateStaging, if_pos hwf]
      have hf : (fun d0 => if (d0._id == d._id) then
            applyStagingUpdate ⟨some fs, none, none⟩ d0 else d0) doc
          = applyStagingUpdate ⟨some fs, none, none⟩ doc := by
        simp [heq]
      exact hf ▸ List.mem_map_of_mem _ hmem
    · simp [applyStagingUpdate]
  · rw [hloop]
  · rw [hloop]
  · rw [hloop]

/-- Documents for the scenario-C witness: five pending items. -/
def qDoc1 : StagingDoc :=
  { demoDoc with
    _id := "aaaaaaaaaaaaaaaaaaaaaaa1"
    gridFsFileId := "cccccccccccccccccccccc01"
    createdAt := 1 }

def qDoc2 : StagingDoc :=
  { demoDoc with
    _id := "aaaaaaaaaaaaaaaaaaaaaaa2"
    gridFsFileId := "cccccccccccccccccccccc02"
    createdAt := 2 }

def qDoc3 : StagingDoc :=
  { demoDoc with
    _id := "aaaaaaaaaaaaaaaaaaaaaaa3"
    gridFsFileId := "cccccccccccccccccccccc03"
    createdAt := 3 }

def qDoc4 : StagingDoc :=
  { demoDoc with
    _id := "aaaaaaaaaaaaaaaaaaaaaaa4"
    gridFsFileId := "cccccccccccccccccccccc04"
    createdAt := 4 }

def qDoc5 : StagingDoc :=
  { demoDoc with
    _id := "aaaaaaaaaaaaaaaaaaaaaaa5"
    gridFsFileId := "cccccccccccccccccccccc05"
    createdAt := 5 }

/-- A drain state holding the five pending items. -/
def quotaSt : DrainSt :=
  { store := { db := [qDoc1, qDoc2, qDoc3, qDoc4, qDoc5], files := [] },
    uploaded := [], tmpFiles := [] }

/-- An account whose daily upload limit is exhausted. -/
def dailyEnv : DrainEnv :=
  { account := fun _ => .ok
      { storageUsed := 0, storageLimit := 0, dailyUsed := 5, dailyLimit := 5,
        maxUploads := none, uploadsCount := 0 }
    materialize := fun _ => none
    upload := fun _ => .error "unreachable"
    slugStatus := fun _ => .error "unreachable" }

/-- Witness for C2, scenario C: daily limit exhausted on the first of five
pending items; the run reports 0/0/quota-stopped, the first item is stored as
daily_fail and the second stays untouched. -/
theorem quota_fail_first_item_stops_run_witness :
    (processLoop dailyEnv [qDoc1, qDoc2, qDoc3, qDoc4, qDoc5] quotaSt 0 0).2
      = { processed := 0, failed := 0, quotaStopped := true }
    ∧ qDoc2 ∈ (processLoop dailyEnv [qDoc1, qDoc2, qDoc3, qDoc4, qDoc5] quotaSt 0 0).1.store.db
    ∧ applyStagingUpdate ⟨some .daily_fail, none, none⟩ qDoc1
        ∈ (processLoop dailyEnv [qDoc1, qDoc2, qDoc3, qDoc4, qDoc5] quotaSt 0 0).1.store.db
    ∧ (applyStagingUpdate ⟨some .daily_fail, none, none⟩ qDoc1).status = .daily_fail :=
  have h := quota_fail_first_item_stops_run dailyEnv quotaSt qDoc1
    [qDoc2, qDoc3, qDoc4, qDoc5]
    { storageUsed := 0, storageLimit := 0, dailyUsed := 5, dailyLimit := 5,
      maxUploads := none, uploadsCount := 0 }
    .daily_fail rfl (by decide)
  have hdb := h.2.2.1 (by decide) qDoc1 (by decide) rfl
  ⟨by rw [h.1], by
      have hmem := h.2.1 qDoc2 (by decide) (by decide)
      have hrest : (qDoc1 :: [qDoc2, qDoc3, qDoc4, qDoc5]) = [qDoc1, qDoc2, qDoc3, qDoc4, qDoc5] := rfl
      rw [hrest] at hmem
      exact hmem,
    by
      have hm := hdb.1
      have hrest : (qDoc1 :: [qDoc2, qDoc3, qDoc4, qDoc5]) = [qDoc1, qDoc2, qDoc3, qDoc4, qDoc5] := rfl
      rw [hrest] at hm
      exact hm,
    hdb.2⟩

/-- Whether a handler response is a 4xx error (badRequest and notAllChunks are
the handlers' 400 responses; chunkOk is 200 and assembled 201). -/
def ChunkResp.isError : ChunkResp → Bool
  | .badRequest _ => true
  | .notAllChunks _ _ => true
  | _ => false

/-- Claim C4 (counterexample): the append-stream handler appends chunks in
arrival order.  With totalChunks = 4 and bufs i = [i] arriving in order
0, 2, 1, 3, every request is acknowledged (all four indexes are received), yet
the artifact handed to the staging create operation is [0, 2, 1, 3] - the
arrival-order concatenation - not the index-order concatenation [0, 1, 2, 3],
refuting the claim as stated. -/
theorem append_out_of_order_counterexample :
    runChunks appendStep
        [⟨0, 4, [0]⟩, ⟨2, 4, [2]⟩, ⟨1, 4, [1]⟩, ⟨3, 4, [3]⟩] none
      = (none, [.chunkOk 0 4, .chunkOk 2 4, .chunkOk 1 4, .assembled [0, 2, 1, 3] 4])
    ∧ (((List.range 4).map (fun i => ([i] : Bytes))).flatten = [0, 1, 2, 3])
    ∧ ([0, 2, 1, 3] : Bytes) ≠ [0, 1, 2, 3] :=
  ⟨rfl, rfl, by decide⟩

/-- Claim C5 (counterexample): after the append-stream handler finalizes an
upload (the entry is removed), resending the already-received pair
(uploadId, 1) is answered with the 400 Send-chunk-0-first error, not the
success echo - so resending an already-received pair is not always a no-op
success. -/
theorem resend_after_finalize_counterexample :
    runChunks appendStep [⟨0, 2, [1]⟩, ⟨1, 2, [2]⟩, ⟨1, 2, [2]⟩] none
      = (none, [.chunkOk 0 2, .assembled [1, 2] 2, .badRequest "Send chunk 0 first."])
    ∧ ChunkResp.badRequest "Send chunk 0 first." ≠ .chunkOk 1 2 :=
  ⟨rfl, by decide⟩

/-- Claim C6 (counterexample): in the append-stream handler the declared last
chunk (index 2 of 3) arrives while index 1 has never been received, and the
handler completes assembly with the received chunks only ([7] ++ [9]) and
responds with the successful assembled response instead of surfacing an
error. -/
theorem append_last_chunk_missing_completes :
    runChunks appendStep [⟨0, 3, [7]⟩, ⟨2, 3, [9]⟩] none
      = (none, [.chunkOk 0 3, .assembled [7, 9] 2])
    ∧ (ChunkResp.assembled [7, 9] 2).isError = false :=
  ⟨rfl, rfl⟩

/-- Splitting a request sequence splits the run. -/
theorem runChunks_append_split {σ : Type} (step : ChunkReq → σ → σ × ChunkResp)
    (l1 l2 : List ChunkReq) (s : σ) :
    runChunks step (l1 ++ l2) s =
      ((runChunks step l2 (runChunks step l1 s).1).1,
        (runChunks step l1 s).2 ++ (runChunks step l2 (runChunks step l1 s).1).2) := by
  induction l1 generalizing s with
  | nil => simp [runChunks]
  | cons r rs ih =>
      cases hstep : step r s with
      | mk s1 resp =>
          simp only [List.cons_append, runChunks, hstep, List.append_eq]
          rw [ih s1]

/-- Repeating a request that fixes the state yields the same state and the
same response every time. -/
theorem runChunks_replicate_fix {σ : Type} (step : ChunkReq → σ → σ × ChunkResp)
    (req : ChunkReq) (s : σ) (r : ChunkResp) (h : step req s = (s, r)) (n : Nat) :
    runChunks step (List.replicate n req) s = (s, List.replicate n r) := by
  induction n with
  | zero => simp [runChunks]
  | succ n ih => simp [List.replicate_succ, runChunks, h, ih]

/-- On a valid request diskStep reads its state only through getD (an absent
dir behaves as an empty one, since mkdir recursive creates it). -/
theorem diskStep_getD (req : ChunkReq) (s : Option DiskDir)
    (h1 : 1 ≤ req.totalChunks) (h2 : req.chunkIndex < req.totalChunks) :
    diskStep req s = diskStep req (some (s.getD { files := [], meta := none })) := by
  cases s with
  | some d => rfl
  | none =>
      have hc : (!(decide (1 ≤ req.totalChunks) && decide (req.chunkIndex < req.totalChunks)))
          = false := by simp [h1, h2]
      simp only [diskStep, hc, Bool.false_eq_true, if_false]
      rfl

/-- Lookup in a keyed map built from a key list. -/
theorem find?_map_mk_keys (bufs : Nat → Bytes) (q : List Nat) (x : Nat) :
    ((q.map (fun i => (i, bufs i))).find? (fun e => e.1 == x)) =
      if x ∈ q then some (x, bufs x) else none := by
  induction q with
  | nil => simp
  | cons a l ih =>
      by_cases ha : a = x
      · subst ha
        rw [List.map_cons, List.find?_cons_of_pos _ (by simp)]
        simp
      · rw [List.map_cons, List.find?_cons_of_neg _ (by simp [ha])]
        have hax : ¬x = a := fun hx => ha hx.symm
        simp [ih, hax]

theorem lookupFile_map_keys (bufs : Nat → Bytes) (q : List Nat) (x : Nat) :
    lookupFile (q.map (fun i => (i, bufs i))) x =
      if x ∈ q then some (bufs x) else none := by
  rw [lookupFile, find?_map_mk_keys]
  by_cases hx : x ∈ q <;> simp [hx]

/-- Writing a chunk file under a fresh name appends it to the directory. -/
theorem writeFileAt_new (bufs : Nat → Bytes) (q : List Nat) (j : Nat) (b : Bytes)
    (hj : j ∉ q) :
    writeFileAt (q.map (fun i => (i, bufs i))) j b
      = q.map (fun i => (i, bufs i)) ++ [(j, b)] := by
  rw [writeFileAt, find?_map_mk_keys]
  simp [hj]

/-- Overwriting one chunk file leaves lookups of other names unchanged
(map branch of writeFileAt). -/
theorem find?_map_overwrite_ne (l : List (Nat × Bytes)) (j : Nat) (b : Bytes)
    (i : Nat) (hij : i ≠ j) :
    (l.map (fun e => if e.1 == j then (j, b) else e)).find? (fun e => e.1 == i)
      = l.find? (fun e => e.1 == i) := by
  induction l with
  | nil => rfl
  | cons a l ih =>
      rw [List.map_cons]
      by_cases haj : a.1 = j
      · have h1 : (if (a.1 == j) then (j, b) else a) = (j, b) := by simp [haj]
        rw [h1, List.find?_cons_of_neg _ (by simp [Ne.symm hij]),
          List.find?_cons_of_neg _ (by simp [haj, Ne.symm hij])]
        exact ih
      · have h1 : (if (a.1 == j) then (j, b) else a) = a := by simp [haj]
        rw [h1]
        by_cases hai : a.1 = i
        · rw [List.find?_cons_of_pos _ (by simp [hai]),
            List.find?_cons_of_pos _ (by simp [hai])]
        · rw [List.find?_cons_of_neg _ (by simp [hai]),
            List.find?_cons_of_neg _ (by simp [hai])]
          exact ih

/-- Adding one chunk file leaves lookups of other names unchanged (append
branch of writeFileAt). -/
theorem find?_append_single_ne (l : List (Nat × Bytes)) (j : Nat) (b : Bytes)
    (i : Nat) (hij : i ≠ j) :
    (l ++ [(j, b)]).find? (fun e => e.1 == i) = l.find? (fun e => e.1 == i) := by
  induction l with
  | nil =>
      simp only [List.nil_append]
      rw [List.find?_cons_of_neg _ (by simp [Ne.symm hij])]
  | cons a l ih =>
      by_cases hai : a.1 = i
      · rw [List.cons_append, List.find?_cons_of_pos _ (by simp [hai]),
          List.find?_cons_of_pos _ (by simp [hai])]
      · rw [List.cons_append, List.find?_cons_of_neg _ (by simp [hai]),
          List.find?_cons_of_neg _ (by simp [hai])]
        exact ih

theorem lookupFile_writeFileAt_ne (files : List (Nat × Bytes)) (j : Nat) (b : Bytes)
    (i : Nat) (hij : i ≠ j) :
    lookupFile (writeFileAt files j b) i = lookupFile files i := by
  rw [writeFileAt]
  by_cases hex : (List.find? (fun e => e.1 == j) files).isSome = true
  · rw [if_pos hex, lookupFile, lookupFile, find?_map_overwrite_ne files j b i hij]
  · rw [if_neg hex, lookupFile, lookupFile, find?_append_single_ne files j b i hij]

/-- A file name is present in a directory listing exactly when looking it up
succeeds. -/
theorem lookupFile_isSome_iff (files : List (Nat × Bytes)) (i : Nat) :
    (lookupFile files i).isSome = true ↔ i ∈ files.map (fun e => e.1) := by
  induction files with
  | nil => simp [lookupFile]
  | cons a l ih =>
      by_cases ha : a.1 = i
      · rw [lookupFile, List.find?_cons_of_pos _ (by simp [ha])]
        simp [ha]
      · rw [lookupFile, List.find?_cons_of_neg _ (by simp [ha])]
        rw [lookupFile] at ih
        simp [ih, Ne.symm ha]

/-- Rewriting an existing chunk file with its current bytes changes nothing. -/
theorem writeFileAt_self : ∀ (files : List (Nat × Bytes)) (i : Nat) (b : Bytes),
    (files.map (fun e => e.1)).Nodup → lookupFile files i = some b →
    writeFileAt files i b = files := by
  intro files
  induction files with
  | nil =>
      intro i b _ h
      simp [lookupFile] at h
  | cons a l ih =>
      intro i b hnd h
      rw [List.map_cons, List.nodup_cons] at hnd
      obtain ⟨hana, hnd'⟩ := hnd
      by_cases hai : a.1 = i
      · have hfind : (a :: l).find? (fun e => e.1 == i) = some a :=
          List.find?_cons_of_pos _ (by simp [hai])
        have hab : a.2 = b := by
          rw [lookupFile, hfind] at h
          simpa using h
        rw [writeFileAt, if_pos (by rw [hfind]; rfl), List.map_cons]
        have h1 : (if (a.1 == i) then (i, b) else a) = a := by
          rw [if_pos (by simp [hai]), ← hai, ← hab]
        have hnotin : i ∉ l.map (fun e => e.1) := hai ▸ hana
        have h2 : l.map (fun e => if e.1 == i then (i, b) else e) = l.map id := by
          apply List.map_congr_left
          intro e he
          have hne : e.1 ≠ i := fun hc => hnotin (hc ▸ List.mem_map_of_mem _ he)
          simp [hne]
        rw [h1, h2, List.map_id]
      · have hfind : (a :: l).find? (fun e => e.1 == i) = l.find? (fun e => e.1 == i) :=
          List.find?_cons_of_neg _ (by simp [hai])
        have hl : lookupFile l i = some b := by
          rw [lookupFile, hfind] at h
          exact h
        have hwl := ih i b hnd' hl
        have hex : (List.find? (fun e => e.1 == i) l).isSome = true := by
          rw [lookupFile] at hl
          cases hfl : List.find? (fun e => e.1 == i) l with
          | none => rw [hfl] at hl; cases hl
          | some e0 => rfl
        rw [writeFileAt, if_pos (by rw [hfind]; exact hex), List.map_cons]
        rw [writeFileAt, if_pos hex] at hwl
        have h1 : (if (a.1 == i) then (i, b) else a) = a := by simp [hai]
        rw [h1, hwl]

/-- A single request runs as one step. -/
theorem runChunks_single {σ : Type} (step : ChunkReq → σ → σ × ChunkResp)
    (r : ChunkReq) (s : σ) :
    runChunks step [r] s = ((step r s).1, [(step r s).2]) := by
  cases h : step r s with
  | mk s1 resp => simp [runChunks, h]

/-- Claim C5 (amended): while an upload session is live, resending an
already-received (uploadId, chunkIndex) pair is a no-op on the session state
and the assembled data and returns the success echo of chunkIndex and
totalChunks, repeated any number of times: in the append-stream handler for
any received index, and in the parts-on-disk handler for a received,
non-terminal index resent with its stored bytes while the session is still
incomplete.  (Once the append-stream session has been finalized and discarded,
a resend of an index above 0 is rejected instead - see the counterexample.) -/
theorem chunk_idempotency_amended :
    (∀ (e : AppendEntry) (i T : Nat) (buf : Bytes) (n : Nat),
      1 ≤ T → i < T → e.received.contains i = true →
      appendStep ⟨i, T, buf⟩ (some e) = (some e, .chunkOk i T)
      ∧ runChunks appendStep (List.replicate n ⟨i, T, buf⟩) (some e)
          = (some e, List.replicate n (.chunkOk i T)))
    ∧ (∀ (dir : DiskDir) (i T : Nat) (buf : Bytes) (n : Nat),
      1 ≤ T → i < T → i ≠ T - 1 →
      (i = 0 → dir.meta = some { totalChunks := T }) →
      (dir.files.map (fun e => e.1)).Nodup →
      lookupFile dir.files i = some buf →
      checkAllPresent dir = none →
      diskStep ⟨i, T, buf⟩ (some dir) = (some dir, .chunkOk i T)
      ∧ runChunks diskStep (List.replicate n ⟨i, T, buf⟩) (some dir)
          = (some dir, List.replicate n (.chunkOk i T))) := by
  constructor
  · intro e i T buf n hT hiT hrec
    have hstep : appendStep ⟨i, T, buf⟩ (some e) = (some e, .chunkOk i T) := by
      by_cases hi0 : i = 0
      · subst hi0
        simp [appendStep, hT, hiT, hrec]
        intro h
        exact absurd (by simpa using hrec) h
      · simp [appendStep, hT, hiT, hi0, hrec]
        intro h
        exact absurd (by simpa using hrec) h
    exact ⟨hstep, runChunks_replicate_fix _ _ _ _ hstep n⟩
  · intro dir i T buf n hT hiT hlast hmeta0 hnd hlook hcheck
    have hw : writeFileAt dir.files i buf = dir.files :=
      writeFileAt_self dir.files i buf hnd hlook
    have hc : (!(decide (1 ≤ T) && decide (i < T))) = false := by simp [hT, hiT]
    have hlastb : (i == T - 1) = false := by simp [hlast]
    have hstep : diskStep ⟨i, T, buf⟩ (some dir) = (some dir, .chunkOk i T) := by
      obtain ⟨dfiles, dmeta⟩ := dir
      simp only at hw hmeta0 hcheck
      by_cases hi0 : i = 0
      · have hm := hmeta0 hi0
        subst hi0
        simp only [diskStep, hc, Bool.false_eq_true, if_false, Option.getD_some, hw,
          beq_self_eq_true, if_true, ← hm, hcheck, hlastb]
      · have hi0b : (i == 0) = false := by simp [hi0]
        simp only [diskStep, hc, Bool.false_eq_true, if_false, Option.getD_some, hw,
          hi0b, if_false, hcheck, hlastb]
    exact ⟨hstep, runChunks_replicate_fix _ _ _ _ hstep n⟩

/-- Witness for the amended C5: a live append entry that received chunks 0 and
1 of 3, and a live disk session that received chunks 0 and 1 of 4; both accept
the duplicate of chunk 1 twice in a row without changing state. -/
theorem chunk_idempotency_amended_witness :
    appendStep ⟨1, 3, [9]⟩ (some ⟨[7, 9], [1, 0], 3⟩)
      = (some ⟨[7, 9], [1, 0], 3⟩, .chunkOk 1 3)
    ∧ runChunks appendStep (List.replicate 2 ⟨1, 3, [9]⟩) (some ⟨[7, 9], [1, 0], 3⟩)
      = (some ⟨[7, 9], [1, 0], 3⟩, List.replicate 2 (.chunkOk 1 3))
    ∧ diskStep ⟨1, 4, [8]⟩ (some ⟨[(0, [7]), (1, [8])], some ⟨4⟩⟩)
      = (some ⟨[(0, [7]), (1, [8])], some ⟨4⟩⟩, .chunkOk 1 4)
    ∧ runChunks diskStep (List.replicate 2 ⟨1, 4, [8]⟩)
        (some ⟨[(0, [7]), (1, [8])], some ⟨4⟩⟩)
      = (some ⟨[(0, [7]), (1, [8])], some ⟨4⟩⟩, List.replicate 2 (.chunkOk 1 4)) :=
  have ha := chunk_idempotency_amended.1 ⟨[7, 9], [1, 0], 3⟩ 1 3 [9] 2
    (by decide) (by decide) (by decide)
  have hd := chunk_idempotency_amended.2 ⟨[(0, [7]), (1, [8])], some ⟨4⟩⟩ 1 4 [8] 2
    (by decide) (by decide) (by decide) (fun h => absurd h (by decide))
    (by decide) (by decide) (by decide)
  ⟨ha.1, ha.2, hd.1, hd.2⟩

/-- Claim C6 (amended): in the parts-on-disk handler, when the declared last
chunk (index totalChunks - 1) arrives while some other index is still missing,
the handler (after its bounded 15-second poll) responds with the 400
not-all-chunks error whose debug payload lists the chunk files present
together with the declared total - a listing that identifies the outstanding
indexes as the complement - keeps the session, and does not hand any artifact
to the staging create operation.  (The append-stream handler instead completes
assembly with the received chunks - see the counterexample.) -/
theorem disk_last_chunk_missing_error (dir : DiskDir) (N : Nat) (buf : Bytes)
    (hN : 2 ≤ N) (hmeta : dir.meta = some { totalChunks := N })
    (hmiss : ∃ i, i < N ∧ i ≠ N - 1 ∧ lookupFile dir.files i = none) :
    diskStep ⟨N - 1, N, buf⟩ (some dir)
      = (some { files := writeFileAt dir.files (N - 1) buf, meta := dir.meta },
        .notAllChunks ((writeFileAt dir.files (N - 1) buf).map (fun e => e.1)) (some N))
    ∧ (ChunkResp.notAllChunks ((writeFileAt dir.files (N - 1) buf).map (fun e => e.1))
        (some N)).isError = true
    ∧ ∀ i, i ∈ (writeFileAt dir.files (N - 1) buf).map (fun e => e.1)
        ↔ (lookupFile (writeFileAt dir.files (N - 1) buf) i).isSome = true := by
  obtain ⟨i0, hi0N, hi0ne, hi0none⟩ := hmiss
  obtain ⟨dfiles, dmeta⟩ := dir
  simp only at hmeta hi0none ⊢
  subst hmeta
  have hc : (!(decide (1 ≤ N) && decide (N - 1 < N))) = false := by
    have h1 : 1 ≤ N := by omega
    have h2 : N - 1 < N := by omega
    simp [h1, h2]
  have hne0 : (N - 1 == 0) = false := by
    have : N - 1 ≠ 0 := by omega
    simp [this]
  have hallfail : (List.range N).all
      (fun i => (lookupFile (writeFileAt dfiles (N - 1) buf) i).isSome) = false := by
    apply List.all_eq_false.mpr
    refine ⟨i0, List.mem_range.mpr hi0N, ?_⟩
    rw [lookupFile_writeFileAt_ne dfiles (N - 1) buf i0 hi0ne, hi0none]
    simp
  have hcheck : checkAllPresent
      ⟨writeFileAt dfiles (N - 1) buf, some { totalChunks := N }⟩ = none := by
    simp only [checkAllPresent, hallfail, Bool.false_eq_true, if_false]
  have hlastb : ((N - 1 : Nat) == N - 1) = true := by simp
  refine ⟨?_, rfl, ?_⟩
  · simp only [diskStep, hc, Bool.false_eq_true, if_false, Option.getD_some, hne0,
      hcheck, hlastb, if_true]
    rfl
  · intro i
    exact (lookupFile_isSome_iff _ i).symm

/-- Witness for the amended C6: chunks 0 and 2 of 4 are present, the declared
last chunk 3 arrives, chunk 1 is still missing: the handler reports the
not-all-chunks error listing files 0, 2, 3 and total 4 and keeps the dir. -/
theorem disk_last_chunk_missing_error_witness :
    diskStep ⟨3, 4, [5]⟩
        (some { files := [(0, [7]), (2, [9])], meta := some { totalChunks := 4 } })
      = (some { files := [(0, [7]), (2, [9]), (3, [5])],
                meta := some { totalChunks := 4 } },
        .notAllChunks [0, 2, 3] (some 4)) := by
  have h := disk_last_chunk_missing_error
    ⟨[(0, [7]), (2, [9])], some { totalChunks := 4 }⟩ 4 [5] (by decide) rfl
    ⟨1, by decide, by decide, by decide⟩
  exact h.1

/-- Outcome of a valid disk-handler request while chunks are still missing:
the chunk file is written (meta on chunk 0), the session is kept, and the
response is the not-all-chunks error on a declared last chunk and the success
echo otherwise. -/
theorem diskStep_not_all (i T : Nat) (buf : Bytes) (dir : DiskDir)
    (hT : 1 ≤ T) (hiT : i < T)
    (hcheck : checkAllPresent
        ⟨writeFileAt dir.files i buf,
          if i == 0 then some ⟨T⟩ else dir.meta⟩ = none) :
    diskStep ⟨i, T, buf⟩ (some dir)
      = (some ⟨writeFileAt dir.files i buf, if i == 0 then some ⟨T⟩ else dir.meta⟩,
        if i == T - 1 then
          .notAllChunks ((writeFileAt dir.files i buf).map (fun e => e.1))
            ((if i == 0 then some (⟨T⟩ : DiskMeta) else dir.meta).map
              (fun m => m.totalChunks))
        else .chunkOk i T) := by
  have hc : (!(decide (1 ≤ T) && decide (i < T))) = false := by simp [hT, hiT]
  obtain ⟨dfiles, dmeta⟩ := dir
  simp only at hcheck ⊢
  cases hi0 : (i == 0) with
  | true =>
      rw [hi0, if_pos rfl] at hcheck
      simp only [diskStep, hc, Bool.false_eq_true, if_false, Option.getD_some, hi0,
        if_true, hcheck]
      cases hlast : (i == T - 1) <;> simp [hlast]
  | false =>
      rw [hi0, if_neg (by simp)] at hcheck
      simp only [diskStep, hc, Bool.false_eq_true, if_false, Option.getD_some, hi0,
        hcheck]
      cases hlast : (i == T - 1) <;> simp [hlast]

/-- Outcome of a valid disk-handler request that completes the set: the
chunk files are concatenated in index order 0..totalChunks-1, the artifact and
its summed size go to the staging create operation, and the session is cleaned
up. -/
theorem diskStep_assembles (i T : Nat) (buf : Bytes) (dir : DiskDir) (m : DiskMeta)
    (hT : 1 ≤ T) (hiT : i < T)
    (hcheck : checkAllPresent
        ⟨writeFileAt dir.files i buf,
          if i == 0 then some ⟨T⟩ else dir.meta⟩ = some m) :
    diskStep ⟨i, T, buf⟩ (some dir)
      = (none,
        .assembled
          (((List.range T).map
            (fun k => (lookupFile (writeFileAt dir.files i buf) k).getD [])).flatten)
          (((List.range T).map
            (fun k => (lookupFile (writeFileAt dir.files i buf) k).getD [])).flatten).length) := by
  have hc : (!(decide (1 ≤ T) && decide (i < T))) = false := by simp [hT, hiT]
  obtain ⟨dfiles, dmeta⟩ := dir
  simp only at hcheck ⊢
  cases hi0 : (i == 0) with
  | true =>
      rw [hi0, if_pos rfl] at hcheck
      simp only [diskStep, hc, Bool.false_eq_true, if_false, Option.getD_some, hi0,
        if_true, hcheck]
  | false =>
      rw [hi0, if_neg (by simp)] at hcheck
      simp only [diskStep, hc, Bool.false_eq_true, if_false, Option.getD_some, hi0,
        hcheck]

/-- State of the parts-on-disk session after any proper subset of the chunks
of a totalChunks = N upload has arrived, in any order: the chunk dir holds
exactly the arrived indexes with their bytes, and the meta exactly when
chunk 0 has arrived. -/
theorem disk_run_prefix (N : Nat) (bufs : Nat → Bytes) :
    ∀ (p : List Nat), p.Nodup → (∀ i ∈ p, i < N) → (∃ j, j < N ∧ j ∉ p) →
    (runChunks diskStep (p.map (fun i => ⟨i, N, bufs i⟩)) none).1.getD ⟨[], none⟩
      = ⟨p.map (fun i => (i, bufs i)), if 0 ∈ p then some ⟨N⟩ else none⟩ := by
  intro p
  induction p using List.reverseRecOn with
  | nil =>
      intro _ _ _
      simp [runChunks]
  | append_singleton q j ih =>
      intro hnd hsub hmiss
      rw [List.nodup_append] at hnd
      have hndq : q.Nodup := hnd.1
      have hjq : j ∉ q := fun hm => hnd.2.2 hm (by simp)
      have hjN : j < N := hsub j (by simp)
      have hN1 : 1 ≤ N := by omega
      obtain ⟨j', hj'N, hj'notin⟩ := hmiss
      have hj'q : j' ∉ q := fun hm => hj'notin (by simp [hm])
      have hj'j : j' ≠ j := fun he => hj'notin (by simp [he])
      have hihq := ih hndq (fun i hi => hsub i (by simp [hi])) ⟨j, hjN, hjq⟩
      rw [List.map_append, runChunks_append_split]
      simp only [List.map_cons, List.map_nil]
      rw [runChunks_single]
      simp only
      rw [diskStep_getD _ _ hN1 hjN, hihq]
      have hfiles : writeFileAt (q.map (fun i => (i, bufs i))) j (bufs j)
          = (q ++ [j]).map (fun i => (i, bufs i)) := by
        rw [writeFileAt_new bufs q j (bufs j) hjq, List.map_append]
        rfl
      have hmetaeq : (if (j == 0) then some (⟨N⟩ : DiskMeta)
            else if 0 ∈ q then some ⟨N⟩ else none)
          = (if 0 ∈ q ++ [j] then some (⟨N⟩ : DiskMeta) else none) := by
        by_cases hj0 : j = 0
        · subst hj0
          simp
        · have h0j : ¬(0 = j) := fun h => hj0 h.symm
          simp [hj0, List.mem_append, h0j]
      have hnotall : checkAllPresent ⟨(q ++ [j]).map (fun i => (i, bufs i)),
          if 0 ∈ q ++ [j] then some ⟨N⟩ else none⟩ = none := by
        have hnin : j' ∉ q ++ [j] := by
          intro hm
          rcases List.mem_append.mp hm with h | h
          · exact hj'q h
          · exact hj'j (by simpa using h)
        by_cases h0 : 0 ∈ q ++ [j]
        · have hall : ((List.range N).all fun i =>
              (lookupFile ((q ++ [j]).map (fun i => (i, bufs i))) i).isSome) = false := by
            apply List.all_eq_false.mpr
            refine ⟨j', List.mem_range.mpr hj'N, ?_⟩
            rw [lookupFile_map_keys]
            simp [hnin]
          simp only [h0, if_pos, checkAllPresent, hall, Bool.false_eq_true, if_false]
        · simp [h0, checkAllPresent]
      have hstep := diskStep_not_all j N (bufs j)
        ⟨q.map (fun i => (i, bufs i)), if 0 ∈ q then some ⟨N⟩ else none⟩ hN1 hjN
        (by simpa only [hfiles, hmetaeq] using hnotall)
      rw [hstep]
      simp [hfiles, hmetaeq]
      by_cases hj0 : j = 0
      · subst hj0
        simp
      · have h0j : ¬(0 = j) := fun h => hj0 h.symm
        simp [hj0, h0j]

/-- State of the append-stream session after the first k chunks (0 < k < N) of
a totalChunks = N upload have arrived in index order: the temp file holds the
concatenation of the first k buffers and the first k indexes are received. -/
theorem append_run_prefix (N : Nat) (bufs : Nat → Bytes) :
    ∀ (k : Nat), 0 < k → k < N →
    (runChunks appendStep ((List.range k).map (fun i => ⟨i, N, bufs i⟩)) none).1
      = some ⟨((List.range k).map bufs).flatten, (List.range k).reverse, N⟩ := by
  intro k
  induction k with
  | zero =>
      intro h _
      exact absurd h (lt_irrefl 0)
  | succ k ih =>
      intro _ hlt
      by_cases hk : k = 0
      · subst hk
        have hN1 : 1 ≤ N := by omega
        have h0N : 0 < N := by omega
        have hstep : appendStep ⟨0, N, bufs 0⟩ none
            = (some ⟨bufs 0, [0], N⟩, .chunkOk 0 N) := by
          simp [appendStep, hN1, h0N]
        have hr1 : List.range (0 + 1) = [0] := rfl
        rw [hr1, List.map_cons, List.map_nil, runChunks_single, hstep]
        simp
      · have hk1 : 0 < k := Nat.pos_of_ne_zero hk
        have hkN : k < N := by omega
        have hprev := ih hk1 hkN
        rw [List.range_succ, List.map_append, runChunks_append_split]
        simp only [List.map_cons, List.map_nil]
        rw [runChunks_single]
        simp only
        rw [hprev]
        have hN1 : 1 ≤ N := by omega
        have hkc : (k == 0) = false := by simp [hk]
        have hrecmem : ((List.range k).reverse.contains k) = false := by
          simp
        have hklast : (k == N - 1) = false := by
          have hne : k ≠ N - 1 := by omega
          simp [hne]
        have hc : (!(decide (1 ≤ N) && decide (k < N))) = false := by simp [hN1, hkN]
        simp only [appendStep, hc, Bool.false_eq_true, if_false, hkc, hrecmem, hklast]
        simp [List.range_succ, List.flatten_append]

/-- Claim C4 (amended): in the parts-on-disk handler, for any totalChunks = N
upload whose N distinct chunks arrive in any order, the artifact handed to the
staging create operation is the concatenation of the chunks in index order
0..N-1 and its byte length is the sum of the N chunk lengths, and the session
is cleaned up.  In the append-stream handler the artifact is the concatenation
in arrival order, so the same holds when the chunks of a multi-chunk upload
(N at least 2) arrive in increasing index order (the serial delivery the
design assumes); out of order it does not (see the counterexample). -/
theorem assembly_completeness_amended (N : Nat) (bufs : Nat → Bytes)
    (order : List Nat) (hN : 0 < N) (hperm : order.Perm (List.range N)) :
    ((runChunks diskStep (order.map (fun i => ⟨i, N, bufs i⟩)) none).1 = none
      ∧ (runChunks diskStep (order.map (fun i => ⟨i, N, bufs i⟩)) none).2.getLast?
          = some (.assembled (((List.range N).map bufs).flatten)
              (((List.range N).map bufs).flatten).length))
    ∧ (((List.range N).map bufs).flatten).length
        = ((List.range N).map (fun i => (bufs i).length)).sum
    ∧ (2 ≤ N →
        (runChunks appendStep ((List.range N).map (fun i => ⟨i, N, bufs i⟩)) none).1
          = none
        ∧ (runChunks appendStep ((List.range N).map (fun i => ⟨i, N, bufs i⟩)) none).2.getLast?
            = some (.assembled (((List.range N).map bufs).flatten)
                (((List.range N).map bufs).flatten).length)) := by
  have hlen : (((List.range N).map bufs).flatten).length
      = ((List.range N).map (fun i => (bufs i).length)).sum := by
    rw [List.length_flatten, List.map_map]
    rfl
  refine ⟨?_, hlen, ?_⟩
  · have hne : order ≠ [] := by
      intro h
      have hlen2 := hperm.length_eq
      rw [h] at hlen2
      simp at hlen2
      omega
    obtain ⟨q, j, rfl⟩ : ∃ q j, order = q ++ [j] :=
      ⟨order.dropLast, order.getLast hne, (List.dropLast_append_getLast hne).symm⟩
    have hndo : (q ++ [j]).Nodup := hperm.nodup_iff.mpr (List.nodup_range N)
    have hnd2 := hndo
    rw [List.nodup_append] at hnd2
    have hndq : q.Nodup := hnd2.1
    have hjq : j ∉ q := fun hm => hnd2.2.2 hm (by simp)
    have hsub : ∀ i ∈ q ++ [j], i < N := fun i hi => List.mem_range.mp (hperm.subset hi)
    have hjN : j < N := hsub j (by simp)
    have hN1 : 1 ≤ N := by omega
    have hq := disk_run_prefix N bufs q hndq (fun i hi => hsub i (by simp [hi]))
      ⟨j, hjN, hjq⟩
    rw [List.map_append, runChunks_append_split]
    simp only [List.map_cons, List.map_nil]
    rw [runChunks_single]
    simp only
    rw [diskStep_getD _ _ hN1 hjN, hq]
    have hfiles : writeFileAt (q.map (fun i => (i, bufs i))) j (bufs j)
        = (q ++ [j]).map (fun i => (i, bufs i)) := by
      rw [writeFileAt_new bufs q j (bufs j) hjq, List.map_append]
      rfl
    have hmem0 : (0 : Nat) ∈ q ++ [j] := hperm.mem_iff.mpr (List.mem_range.mpr hN)
    have hmetaeq : (if (j == 0) then some (⟨N⟩ : DiskMeta)
          else if 0 ∈ q then some ⟨N⟩ else none) = some ⟨N⟩ := by
      by_cases hj0 : j = 0
      · simp [hj0]
      · have h0q : 0 ∈ q := by
          rcases List.mem_append.mp hmem0 with h | h
          · exact h
          · have h0j : (0 : Nat) = j := by simpa using h
            exact absurd h0j (fun h2 => hj0 h2.symm)
        simp [hj0, h0q]
    have hallpres : checkAllPresent
        ⟨(q ++ [j]).map (fun i => (i, bufs i)), some ⟨N⟩⟩ = some ⟨N⟩ := by
      have hall : ((List.range N).all fun i =>
          (lookupFile ((q ++ [j]).map (fun i => (i, bufs i))) i).isSome) = true := by
        apply List.all_eq_true.mpr
        intro i hi
        rw [lookupFile_map_keys]
        have him : i ∈ q ++ [j] := hperm.mem_iff.mpr hi
        simp [him]
      simp only [checkAllPresent, hall, if_true]
    have hart : (List.range N).map
        (fun k => (lookupFile ((q ++ [j]).map (fun i => (i, bufs i))) k).getD [])
        = (List.range N).map bufs := by
      apply List.map_congr_left
      intro i hi
      rw [lookupFile_map_keys]
      have him : i ∈ q ++ [j] := hperm.mem_iff.mpr hi
      simp [him]
    have hstep := diskStep_assembles j N (bufs j)
      ⟨q.map (fun i => (i, bufs i)), if 0 ∈ q then some ⟨N⟩ else none⟩ ⟨N⟩ hN1 hjN
      (by
        show checkAllPresent
          ⟨writeFileAt (q.map (fun i => (i, bufs i))) j (bufs j),
            if (j == 0) then some ⟨N⟩
            else if 0 ∈ q then some ⟨N⟩ else none⟩ = some ⟨N⟩
        rw [hfiles, hmetaeq]
        exact hallpres)
    rw [hstep]
    refine ⟨by simp, ?_⟩
    rw [List.getLast?_concat]
    have hAT : (List.map (fun k => (lookupFile (writeFileAt
        ({ files := List.map (fun i => (i, bufs i)) q,
           meta := if 0 ∈ q then some ⟨N⟩ else none } : DiskDir).files j (bufs j)) k).getD [])
        (List.range N)) = List.map bufs (List.range N) := by
      show (List.map (fun k => (lookupFile (writeFileAt
          (List.map (fun i => (i, bufs i)) q) j (bufs j)) k).getD []) (List.range N))
        = List.map bufs (List.range N)
      rw [hfiles]
      exact hart
    simp only [hAT]
  · intro hN2
    have hN1' : 0 < N - 1 := by omega
    have hNm1 : N - 1 < N := by omega
    have hprev := append_run_prefix N bufs (N - 1) hN1' hNm1
    have hrange : List.range N = List.range (N - 1) ++ [N - 1] := by
      conv_lhs => rw [show N = (N - 1) + 1 by omega]
      rw [List.range_succ]
    rw [hrange, List.map_append, runChunks_append_split]
    simp only [List.map_cons, List.map_nil]
    rw [runChunks_single]
    simp only
    rw [hprev]
    have hc : (!(decide (1 ≤ N) && decide (N - 1 < N))) = false := by
      have h1 : 1 ≤ N := by omega
      simp [h1, hNm1]
    have hk0 : ((N - 1 : Nat) == 0) = false := by
      have hne' : N - 1 ≠ 0 := by omega
      simp [hne']
    have hmem : ((List.range (N - 1)).reverse.contains (N - 1)) = false := by simp
    have hlastb : ((N - 1 : Nat) == N - 1) = true := by simp
    have hstep : appendStep ⟨N - 1, N, bufs (N - 1)⟩
        (some ⟨((List.range (N - 1)).map bufs).flatten, (List.range (N - 1)).reverse, N⟩)
        = (none, .assembled (((List.range (N - 1) ++ [N - 1]).map bufs).flatten)
            ((((List.range (N - 1) ++ [N - 1]).map bufs).flatten)).length) := by
      simp only [appendStep, hc, Bool.false_eq_true, if_false, hk0, hmem, hlastb,
        if_true]
      simp [List.flatten_append]
    rw [hstep]
    exact ⟨by simp, by simp [List.getLast?_concat]⟩

/-- Witness for the amended C4: three one-byte chunks; the disk handler gets
them in order 0, 2, 1 and still assembles [0, 1, 2]; the append handler gets
them in order and assembles the same. -/
theorem assembly_completeness_amended_witness :
    (runChunks diskStep [⟨0, 3, [0]⟩, ⟨2, 3, [2]⟩, ⟨1, 3, [1]⟩] none).1 = none
    ∧ (runChunks diskStep [⟨0, 3, [0]⟩, ⟨2, 3, [2]⟩, ⟨1, 3, [1]⟩] none).2.getLast?
        = some (.assembled [0, 1, 2] 3)
    ∧ (runChunks appendStep [⟨0, 3, [0]⟩, ⟨1, 3, [1]⟩, ⟨2, 3, [2]⟩] none).2.getLast?
        = some (.assembled [0, 1, 2] 3) := by
  have h := assembly_completeness_amended 3 (fun k => [k]) [0, 2, 1]
    (by decide) (by decide)
  exact ⟨h.1.1, h.1.2, (h.2.2 (by decide)).2⟩

end StreamHaven
